import Mathlib

/-!
Verification of the binary-stream codec core.

The development shallowly embeds the reader/writer pair of `src/lib.rs`
together with the cursor-backed byte-stream backend
(`std::io::Cursor<Vec<u8>>`, mirrored by `src/stream/memory.rs`), and the
`Option<T>` encodable/decodable wrapper of `src/futures/mod.rs`.

Modelling conventions:
- machine integers are `Nat` (unsigned) or `Int` (signed, two's complement
  representation made explicit with `% 2 ^ (8 * w)`);
- `f32`/`f64` values are identified with their IEEE-754 bit patterns
  (`Nat` below `2 ^ 32` / `2 ^ 64`): the code moves float bytes verbatim
  via `to_le_bytes`/`from_le_bytes` without any numeric interpretation;
- Rust `String` values are identified with their UTF-8 byte sequences,
  together with a UTF-8 validity checker standing for `String::from_utf8`;
- the build is the default profile: the `64bit` feature is off, so string
  length prefixes are 4 bytes; the target is 64-bit, so `usize`/`isize`
  are 8 bytes wide;
- every operation returns a pair of the `Except` outcome and the stream
  state after the call, so frame effects of failing calls are visible.
-/

namespace BinaryStream

/-- Endianness variants (`Endian` in src/lib.rs). -/
inductive Endian where
  | little
  | big
deriving DecidableEq, Repr

/-- Reader/writer options (`Options` in src/lib.rs). -/
structure Options where
  endian : Endian
  max_buffer_size : Option Nat
deriving Repr

/-- Errors surfaced by the codec (the `std::io::Error` values built in
src/lib.rs and the bounds error of the stream backends). -/
inductive BinaryError where
  | readPastEof
  | bufferTooLarge (requested : Nat) (limit : Nat)
  | invalidUtf8
  | invalidCharacter
deriving DecidableEq, Repr

/-- Cursor-backed byte stream: the state of `Cursor<Vec<u8>>` /
`MemoryStream` (src/stream/memory.rs): backing bytes plus a position. -/
structure ByteStream where
  data : List Nat
  pos : Nat
deriving DecidableEq, Repr

/-- Outcome of an operation: the result together with the stream state
after the call (errors leave the state exactly as the code left it). -/
abbrev BinResult (α : Type) := Except BinaryError α × ByteStream

/-- `read`/`read_exact` of the memory-backed stream
(src/stream/memory.rs lines 39-52): a read that would cross the end of
the data is rejected without consuming anything; otherwise exactly `n`
bytes are produced and the position advances by `n`. -/
def readExact (s : ByteStream) (n : Nat) : BinResult (List Nat) :=
  if s.pos + n > s.data.length then
    (.error .readPastEof, s)
  else
    (.ok ((s.data.drop s.pos).take n), ⟨s.data, s.pos + n⟩)

/-- `Write::write` of `Cursor<Vec<u8>>` (used by `MemoryStream`): pad
with zeros up to the position if it lies past the end, overwrite in
place, extend at the end; all bytes are always written and the position
advances by the byte count. -/
def streamWrite (s : ByteStream) (bs : List Nat) : ByteStream :=
  let padded := s.data ++ List.replicate (s.pos - s.data.length) 0
  ⟨padded.take s.pos ++ bs ++ padded.drop (s.pos + bs.length),
   s.pos + bs.length⟩

/-- Little-endian byte list of width `w` for value `v`
(`to_le_bytes`). -/
def toLeBytes : Nat → Nat → List Nat
  | 0, _ => []
  | w + 1, v => v % 256 :: toLeBytes w (v / 256)

/-- Value of a little-endian byte list (`from_le_bytes`). -/
def fromLeBytes : List Nat → Nat
  | [] => 0
  | b :: bs => b + 256 * fromLeBytes bs

/-- The `encode_endian!` macro of src/lib.rs lines 17-25: produce the
`w` bytes of `v` in the configured order. -/
def encodeEndian (e : Endian) (w v : Nat) : List Nat :=
  match e with
  | .little => toLeBytes w v
  | .big => (toLeBytes w v).reverse

/-- The `decode_endian!` macro of src/lib.rs lines 27-35: interpret the
bytes in the configured order. -/
def decodeEndian (e : Endian) (bs : List Nat) : Nat :=
  match e with
  | .little => fromLeBytes bs
  | .big => fromLeBytes bs.reverse

/-- The `guard_size!` macro of src/lib.rs lines 37-51: if a maximum is
configured and the length exceeds it, report the buffer-too-large
error. -/
def guardSize (len : Nat) (max : Option Nat) : Option BinaryError :=
  match max with
  | some m => if len > m then some (.bufferTooLarge len m) else none
  | none => none

/-- Two's complement reading of a `w`-byte unsigned value as a signed
integer (the semantics of `iN::from_le_bytes`). -/
def toSigned (w n : Nat) : Int :=
  if n < 2 ^ (8 * w - 1) then (n : Int) else (n : Int) - 2 ^ (8 * w)

/-- Shared body of the fixed-width unsigned reads of `BinaryReader`
(read exactly `w` bytes, decode per endian policy). -/
def readWord (opts : Options) (w : Nat) (s : ByteStream) : BinResult Nat :=
  match readExact s w with
  | (.ok bs, s') => (.ok (decodeEndian opts.endian bs), s')
  | (.error e, s') => (.error e, s')

/-- Shared body of the fixed-width signed reads of `BinaryReader`. -/
def readSigned (opts : Options) (w : Nat) (s : ByteStream) :
    BinResult Int :=
  match readWord opts w s with
  | (.ok n, s') => (.ok (toSigned w n), s')
  | (.error e, s') => (.error e, s')

/-- Shared body of the fixed-width unsigned writes of `BinaryWriter`
(encode per endian policy, write the bytes, return the written count). -/
def writeWord (opts : Options) (w v : Nat) (s : ByteStream) :
    BinResult Nat :=
  let data := encodeEndian opts.endian w (v % 2 ^ (8 * w))
  (.ok data.length, streamWrite s data)

/-- Shared body of the fixed-width signed writes of `BinaryWriter`:
`iN::to_le_bytes` emits the two's complement representation. -/
def writeSigned (opts : Options) (w : Nat) (v : Int) (s : ByteStream) :
    BinResult Nat :=
  writeWord opts w (v % (2 ^ (8 * w) : Int)).toNat s

/-- `BinaryReader::read_u8`. -/
def read_u8 (opts : Options) (s : ByteStream) : BinResult Nat :=
  readWord opts 1 s

/-- `BinaryReader::read_u16`. -/
def read_u16 (opts : Options) (s : ByteStream) : BinResult Nat :=
  readWord opts 2 s

/-- `BinaryReader::read_u32`. -/
def read_u32 (opts : Options) (s : ByteStream) : BinResult Nat :=
  readWord opts 4 s

/-- `BinaryReader::read_u64`. -/
def read_u64 (opts : Options) (s : ByteStream) : BinResult Nat :=
  readWord opts 8 s

/-- `BinaryReader::read_u128`. -/
def read_u128 (opts : Options) (s : ByteStream) : BinResult Nat :=
  readWord opts 16 s

/-- `BinaryReader::read_usize` (64-bit target). -/
def read_usize (opts : Options) (s : ByteStream) : BinResult Nat :=
  readWord opts 8 s

/-- `BinaryReader::read_i8`. -/
def read_i8 (opts : Options) (s : ByteStream) : BinResult Int :=
  readSigned opts 1 s

/-- `BinaryReader::read_i16`. -/
def read_i16 (opts : Options) (s : ByteStream) : BinResult Int :=
  readSigned opts 2 s

/-- `BinaryReader::read_i32`. -/
def read_i32 (opts : Options) (s : ByteStream) : BinResult Int :=
  readSigned opts 4 s

/-- `BinaryReader::read_i64`. -/
def read_i64 (opts : Options) (s : ByteStream) : BinResult Int :=
  readSigned opts 8 s

/-- `BinaryReader::read_i128`. -/
def read_i128 (opts : Options) (s : ByteStream) : BinResult Int :=
  readSigned opts 16 s

/-- `BinaryReader::read_isize` (64-bit target). -/
def read_isize (opts : Options) (s : ByteStream) : BinResult Int :=
  readSigned opts 8 s

/-- `BinaryReader::read_f32` on the bit-pattern view of `f32`. -/
def read_f32 (opts : Options) (s : ByteStream) : BinResult Nat :=
  readWord opts 4 s

/-- `BinaryReader::read_f64` on the bit-pattern view of `f64`. -/
def read_f64 (opts : Options) (s : ByteStream) : BinResult Nat :=
  readWord opts 8 s

/-- `BinaryWriter::write_u8`. -/
def write_u8 (opts : Options) (v : Nat) (s : ByteStream) : BinResult Nat :=
  writeWord opts 1 v s

/-- `BinaryWriter::write_u16`. -/
def write_u16 (opts : Options) (v : Nat) (s : ByteStream) : BinResult Nat :=
  writeWord opts 2 v s

/-- `BinaryWriter::write_u32`. -/
def write_u32 (opts : Options) (v : Nat) (s : ByteStream) : BinResult Nat :=
  writeWord opts 4 v s

/-- `BinaryWriter::write_u64`. -/
def write_u64 (opts : Options) (v : Nat) (s : ByteStream) : BinResult Nat :=
  writeWord opts 8 v s

/-- `BinaryWriter::write_u128`. -/
def write_u128 (opts : Options) (v : Nat) (s : ByteStream) :
    BinResult Nat :=
  writeWord opts 16 v s

/-- `BinaryWriter::write_usize` (64-bit target). -/
def write_usize (opts : Options) (v : Nat) (s : ByteStream) :
    BinResult Nat :=
  writeWord opts 8 v s

/-- `BinaryWriter::write_i8`. -/
def write_i8 (opts : Options) (v : Int) (s : ByteStream) : BinResult Nat :=
  writeSigned opts 1 v s

/-- `BinaryWriter::write_i16`. -/
def write_i16 (opts : Options) (v : Int) (s : ByteStream) : BinResult Nat :=
  writeSigned opts 2 v s

/-- `BinaryWriter::write_i32`. -/
def write_i32 (opts : Options) (v : Int) (s : ByteStream) : BinResult Nat :=
  writeSigned opts 4 v s

/-- `BinaryWriter::write_i64`. -/
def write_i64 (opts : Options) (v : Int) (s : ByteStream) : BinResult Nat :=
  writeSigned opts 8 v s

/-- `BinaryWriter::write_i128`. -/
def write_i128 (opts : Options) (v : Int) (s : ByteStream) :
    BinResult Nat :=
  writeSigned opts 16 v s

/-- `BinaryWriter::write_isize` (64-bit target). -/
def write_isize (opts : Options) (v : Int) (s : ByteStream) :
    BinResult Nat :=
  writeSigned opts 8 v s

/-- `BinaryWriter::write_f32` on the bit-pattern view of `f32`. -/
def write_f32 (opts : Options) (v : Nat) (s : ByteStream) : BinResult Nat :=
  writeWord opts 4 v s

/-- `BinaryWriter::write_f64` on the bit-pattern view of `f64`. -/
def write_f64 (opts : Options) (v : Nat) (s : ByteStream) : BinResult Nat :=
  writeWord opts 8 v s

/-- `BinaryReader::read_bool` (src/lib.rs lines 148-152): read one byte,
any strictly positive value decodes to `true`. -/
def read_bool (opts : Options) (s : ByteStream) : BinResult Bool :=
  match read_u8 opts s with
  | (.ok v, s') => (.ok (decide (v > 0)), s')
  | (.error e, s') => (.error e, s')

/-- `BinaryWriter::write_bool` (src/lib.rs lines 330-334): write one
byte, `1` for `true` and `0` for `false`. -/
def write_bool (opts : Options) (b : Bool) (s : ByteStream) :
    BinResult Nat :=
  write_u8 opts (if b then 1 else 0) s

/-- Validity of a code point as a Unicode scalar value
(`char::from_u32` succeeds). -/
def isUnicodeScalar (n : Nat) : Bool :=
  n < 1114112 && !(55296 ≤ n && n < 57344)

/-- `BinaryReader::read_char`: read a `u32`, reject values that are not
Unicode scalar values. -/
def read_char (opts : Options) (s : ByteStream) : BinResult Nat :=
  match read_u32 opts s with
  | (.ok v, s') =>
      if isUnicodeScalar v then (.ok v, s')
      else (.error .invalidCharacter, s')
  | (.error e, s') => (.error e, s')

/-- `BinaryWriter::write_char`: write the scalar value as a `u32`. -/
def write_char (opts : Options) (c : Nat) (s : ByteStream) :
    BinResult Nat :=
  write_u32 opts c s

/-- One step of UTF-8 validation with explicit fuel (the fuel is an
upper bound on the number of bytes left, so it never runs out when
seeded with the list length). Encodes the byte-level UTF-8 acceptance
rules used by `String::from_utf8`. -/
def utf8ValidFuel : Nat → List Nat → Bool
  | 0, l => l.isEmpty
  | _ + 1, [] => true
  | fuel + 1, b :: rest =>
    if b ≤ 127 then utf8ValidFuel fuel rest
    else if 194 ≤ b && b ≤ 223 then
      match rest with
      | c1 :: r =>
          (128 ≤ c1 && c1 ≤ 191) && utf8ValidFuel fuel r
      | [] => false
    else if b = 224 then
      match rest with
      | c1 :: c2 :: r =>
          (160 ≤ c1 && c1 ≤ 191) && (128 ≤ c2 && c2 ≤ 191) &&
            utf8ValidFuel fuel r
      | _ => false
    else if (225 ≤ b && b ≤ 236) || b = 238 || b = 239 then
      match rest with
      | c1 :: c2 :: r =>
          (128 ≤ c1 && c1 ≤ 191) && (128 ≤ c2 && c2 ≤ 191) &&
            utf8ValidFuel fuel r
      | _ => false
    else if b = 237 then
      match rest with
      | c1 :: c2 :: r =>
          (128 ≤ c1 && c1 ≤ 159) && (128 ≤ c2 && c2 ≤ 191) &&
            utf8ValidFuel fuel r
      | _ => false
    else if b = 240 then
      match rest with
      | c1 :: c2 :: c3 :: r =>
          (144 ≤ c1 && c1 ≤ 191) && (128 ≤ c2 && c2 ≤ 191) &&
            (128 ≤ c3 && c3 ≤ 191) && utf8ValidFuel fuel r
      | _ => false
    else if 241 ≤ b && b ≤ 243 then
      match rest with
      | c1 :: c2 :: c3 :: r =>
          (128 ≤ c1 && c1 ≤ 191) && (128 ≤ c2 && c2 ≤ 191) &&
            (128 ≤ c3 && c3 ≤ 191) && utf8ValidFuel fuel r
      | _ => false
    else if b = 244 then
      match rest with
      | c1 :: c2 :: c3 :: r =>
          (128 ≤ c1 && c1 ≤ 143) && (128 ≤ c2 && c2 ≤ 191) &&
            (128 ≤ c3 && c3 ≤ 191) && utf8ValidFuel fuel r
      | _ => false
    else false

/-- UTF-8 validity of a byte sequence (`String::from_utf8` succeeds). -/
def utf8Valid (l : List Nat) : Bool :=
  utf8ValidFuel l.length l

/-- `BinaryReader::read_string` (src/lib.rs lines 124-140), default
profile: read the `u32` length prefix, apply the size guard, read that
many bytes, validate as UTF-8. The result is the string's UTF-8 byte
sequence. -/
def read_string (opts : Options) (s : ByteStream) :
    BinResult (List Nat) :=
  match read_u32 opts s with
  | (.error e, s1) => (.error e, s1)
  | (.ok len, s1) =>
    match guardSize len opts.max_buffer_size with
    | some e => (.error e, s1)
    | none =>
      match readExact s1 len with
      | (.error e, s2) => (.error e, s2)
      | (.ok chars, s2) =>
          if utf8Valid chars then (.ok chars, s2)
          else (.error .invalidUtf8, s2)

/-- `BinaryWriter::write_string` (src/lib.rs lines 313-323), default
profile: apply the size guard to the UTF-8 byte length, write the `u32`
length prefix, then the bytes; the returned count is that of the final
payload write only. -/
def write_string (opts : Options) (bs : List Nat) (s : ByteStream) :
    BinResult Nat :=
  match guardSize bs.length opts.max_buffer_size with
  | some e => (.error e, s)
  | none =>
    match write_u32 opts bs.length s with
    | (.error e, s1) => (.error e, s1)
    | (.ok _, s1) => (.ok bs.length, streamWrite s1 bs)

/-- `BinaryReader::read_bytes` (src/lib.rs lines 270-276): apply the
size guard to the requested length, then read exactly that many bytes. -/
def read_bytes (opts : Options) (length : Nat) (s : ByteStream) :
    BinResult (List Nat) :=
  match guardSize length opts.max_buffer_size with
  | some e => (.error e, s)
  | none => readExact s length

/-- `BinaryWriter::write_bytes` (src/lib.rs lines 412-416): apply the
size guard, then write the bytes verbatim. -/
def write_bytes (opts : Options) (bs : List Nat) (s : ByteStream) :
    BinResult Nat :=
  match guardSize bs.length opts.max_buffer_size with
  | some e => (.error e, s)
  | none => (.ok bs.length, streamWrite s bs)

/-- Absolute seek (`SeekFrom::Start`) on the cursor backend. -/
def seekStart (s : ByteStream) (offset : Nat) : ByteStream :=
  ⟨s.data, offset⟩

/-- Seek to the end (`SeekFrom::End(0)`): returns the total length and
moves the position there. -/
def seekEnd (s : ByteStream) : Nat × ByteStream :=
  (s.data.length, ⟨s.data, s.data.length⟩)

/-- Current position (`tell` / `stream_position`). -/
def tell (s : ByteStream) : Nat :=
  s.pos

/-- `BinaryReader::len` and `BinaryWriter::len` (src/lib.rs lines
114-121 and 304-311): remember the position, seek to the end to learn
the length, seek back. -/
def lenOp (s : ByteStream) : Nat × ByteStream :=
  let position := tell s
  let (length, s1) := seekEnd s
  (length, seekStart s1 position)

/-- `Option<T>` `Encodable::encode` (src/futures/mod.rs lines 488-503):
write the presence boolean, then the value only if present. The inner
codec is a parameter, as the impl is generic in `T`. -/
def optionEncode {α : Type}
    (innerEnc : α → ByteStream → BinResult Unit) (opts : Options)
    (v : Option α) (s : ByteStream) : BinResult Unit :=
  match write_bool opts v.isSome s with
  | (.error e, s1) => (.error e, s1)
  | (.ok _, s1) =>
    match v with
    | some x => innerEnc x s1
    | none => (.ok (), s1)

/-- `Option<T>` `Decodable::decode` (src/futures/mod.rs lines 505-522):
read the presence boolean; when it is `true`, decode a fresh default
value and store `some` of it; when it is `false`, the code body does
nothing, so the target keeps its prior value. -/
def optionDecode {α : Type} (dflt : α)
    (innerDec : α → ByteStream → BinResult α) (opts : Options)
    (target : Option α) (s : ByteStream) : BinResult (Option α) :=
  match read_bool opts s with
  | (.error e, s1) => (.error e, s1)
  | (.ok hasValue, s1) =>
    if hasValue then
      match innerDec dflt s1 with
      | (.error e, s2) => (.error e, s2)
      | (.ok v, s2) => (.ok (some v), s2)
    else (.ok target, s1)

/-! ### Basic lemmas about the embedding -/

set_option maxRecDepth 100000

theorem streamWrite_pos (s : ByteStream) (bs : List Nat) :
    (streamWrite s bs).pos = s.pos + bs.length := rfl

theorem streamWrite_empty (bs : List Nat) :
    streamWrite ⟨[], 0⟩ bs = ⟨bs, bs.length⟩ := by
  simp [streamWrite]

theorem streamWrite_append (d bs : List Nat) :
    streamWrite ⟨d, d.length⟩ bs = ⟨d ++ bs, d.length + bs.length⟩ := by
  simp [streamWrite, List.drop_eq_nil_of_le]

theorem toLeBytes_length (w v : Nat) : (toLeBytes w v).length = w := by
  induction w generalizing v with
  | zero => rfl
  | succ w ih => simp [toLeBytes, ih]

theorem encodeEndian_length (e : Endian) (w v : Nat) :
    (encodeEndian e w v).length = w := by
  cases e <;> simp [encodeEndian, toLeBytes_length]

theorem fromLeBytes_toLeBytes (w v : Nat) (h : v < 256 ^ w) :
    fromLeBytes (toLeBytes w v) = v := by
  induction w generalizing v with
  | zero =>
      have hv : v = 0 := by simpa using h
      subst hv
      rfl
  | succ w ih =>
      have hdiv : v / 256 < 256 ^ w := by
        rw [Nat.div_lt_iff_lt_mul (by norm_num)]
        calc v < 256 ^ (w + 1) := h
        _ = 256 ^ w * 256 := by rw [pow_succ]
      simp [toLeBytes, fromLeBytes, ih _ hdiv, Nat.mod_add_div]

theorem pow_256_eq (w : Nat) : (256 : Nat) ^ w = 2 ^ (8 * w) := by
  rw [pow_mul]
  norm_num

theorem decodeEndian_encodeEndian (e : Endian) (w v : Nat)
    (h : v < 2 ^ (8 * w)) :
    decodeEndian e (encodeEndian e w v) = v := by
  have h' : v < 256 ^ w := by rw [pow_256_eq]; exact h
  cases e <;>
    simp [encodeEndian, decodeEndian, fromLeBytes_toLeBytes w v h']

theorem readExact_ok (s : ByteStream) (n : Nat)
    (h : s.pos + n ≤ s.data.length) :
    readExact s n = (.ok ((s.data.drop s.pos).take n),
      ⟨s.data, s.pos + n⟩) := by
  simp [readExact, Nat.not_lt.mpr h]

theorem readExact_err (s : ByteStream) (n : Nat)
    (h : s.data.length < s.pos + n) :
    readExact s n = (.error .readPastEof, s) := by
  simp [readExact, h]

theorem readExact_mid (pre bs t : List Nat) :
    readExact ⟨pre ++ bs ++ t, pre.length⟩ bs.length =
      (.ok bs, ⟨pre ++ bs ++ t, pre.length + bs.length⟩) := by
  have hlen : pre.length + bs.length ≤ (pre ++ bs ++ t).length := by
    simp
  rw [readExact_ok _ _ hlen]
  congr 1
  congr 1
  rw [List.append_assoc, List.drop_left, List.take_left]

theorem writeWord_eq (opts : Options) (w v : Nat) (s : ByteStream) :
    writeWord opts w v s =
      (.ok w, streamWrite s (encodeEndian opts.endian w (v % 2 ^ (8 * w)))) := by
  simp [writeWord, encodeEndian_length]

theorem readWord_mid (opts : Options) (pre bs t : List Nat) :
    readWord opts bs.length ⟨pre ++ bs ++ t, pre.length⟩ =
      (.ok (decodeEndian opts.endian bs),
        ⟨pre ++ bs ++ t, pre.length + bs.length⟩) := by
  simp only [readWord, readExact_mid]

theorem readWord_encode (opts : Options) (w v : Nat)
    (pre t : List Nat) (h : v < 2 ^ (8 * w)) :
    readWord opts w
      ⟨pre ++ encodeEndian opts.endian w v ++ t, pre.length⟩ =
      (.ok v, ⟨pre ++ encodeEndian opts.endian w v ++ t,
        pre.length + w⟩) := by
  have hmid := readWord_mid opts pre (encodeEndian opts.endian w v) t
  rw [encodeEndian_length] at hmid
  rw [hmid, decodeEndian_encodeEndian opts.endian w v h]

theorem readWord_err (opts : Options) (w : Nat) (s : ByteStream)
    (h : s.data.length < s.pos + w) :
    readWord opts w s = (.error .readPastEof, s) := by
  simp [readWord, readExact_err s w h]

theorem readWord_ok_state (opts : Options) (w : Nat) (s s' : ByteStream)
    (v : Nat) (h : readWord opts w s = (.ok v, s')) :
    s' = ⟨s.data, s.pos + w⟩ ∧ s.pos + w ≤ s.data.length := by
  by_cases hc : s.data.length < s.pos + w
  · rw [readWord_err opts w s hc] at h
    simp at h
  · have hle : s.pos + w ≤ s.data.length := Nat.not_lt.mp hc
    have hh : readWord opts w s =
        (.ok (decodeEndian opts.endian ((s.data.drop s.pos).take w)),
          ⟨s.data, s.pos + w⟩) := by
      simp only [readWord, readExact_ok s w hle]
    rw [hh] at h
    simp only [Prod.mk.injEq, Except.ok.injEq] at h
    exact ⟨h.2.symm, hle⟩

theorem readSigned_err (opts : Options) (w : Nat) (s : ByteStream)
    (h : s.data.length < s.pos + w) :
    readSigned opts w s = (.error .readPastEof, s) := by
  simp [readSigned, readWord_err opts w s h]

theorem emod_toNat_lt (v : Int) (w : Nat) :
    ((v % (2 ^ (8 * w) : Int)).toNat) < 2 ^ (8 * w) := by
  have hpos : (0 : Int) < 2 ^ (8 * w) := by positivity
  have h1 := Int.emod_nonneg v (ne_of_gt hpos)
  have h2 := Int.emod_lt_of_pos v hpos
  have hc : ((2 ^ (8 * w) : Nat) : Int) = 2 ^ (8 * w) := by push_cast; rfl
  omega

theorem toSigned_emod (w : Nat) (hw : 0 < w) (v : Int)
    (h1 : -(2 ^ (8 * w - 1)) ≤ v) (h2 : v < 2 ^ (8 * w - 1)) :
    toSigned w ((v % (2 ^ (8 * w) : Int)).toNat) = v := by
  have hn : 8 * w - 1 + 1 = 8 * w := by omega
  have hsplit : (2 : Int) ^ (8 * w - 1) + 2 ^ (8 * w - 1) = 2 ^ (8 * w) := by
    have hp : (2 : Int) ^ (8 * w - 1) * 2 = 2 ^ (8 * w - 1 + 1) :=
      (pow_succ 2 (8 * w - 1)).symm
    rw [hn] at hp
    linarith
  have hMpos : (0 : Int) < 2 ^ (8 * w) := by positivity
  have hcast : ((2 ^ (8 * w - 1) : Nat) : Int) = 2 ^ (8 * w - 1) := by
    push_cast; rfl
  have hnn : 0 ≤ v % (2 ^ (8 * w) : Int) :=
    Int.emod_nonneg v (ne_of_gt hMpos)
  have hmod : v % (2 ^ (8 * w) : Int) = v ∨
      v % (2 ^ (8 * w) : Int) = v + 2 ^ (8 * w) := by
    rcases le_or_lt 0 v with hv | hv
    · left
      exact Int.emod_eq_of_lt hv (by omega)
    · right
      have hrw : v % (2 ^ (8 * w) : Int) =
          (v + 2 ^ (8 * w) * 1) % (2 ^ (8 * w)) := by
        rw [Int.add_mul_emod_self_left]
      rw [hrw, mul_one]
      exact Int.emod_eq_of_lt (by omega) (by omega)
  unfold toSigned
  split
  · next hlt => omega
  · next hlt => omega

theorem readWord_full (opts : Options) (w v : Nat) (h : v < 2 ^ (8 * w)) :
    readWord opts w ⟨encodeEndian opts.endian w v, 0⟩ =
      (.ok v, ⟨encodeEndian opts.endian w v, w⟩) := by
  have h0 := readWord_encode opts w v [] [] h
  simpa using h0

theorem writeWord_empty_data (opts : Options) (w v : Nat)
    (h : v < 2 ^ (8 * w)) :
    (writeWord opts w v ⟨[], 0⟩).2.data = encodeEndian opts.endian w v := by
  rw [writeWord_eq, streamWrite_empty, Nat.mod_eq_of_lt h]

theorem roundWord (opts : Options) (w v : Nat) (h : v < 2 ^ (8 * w)) :
    readWord opts w ⟨(writeWord opts w v ⟨[], 0⟩).2.data, 0⟩ =
      (.ok v, ⟨encodeEndian opts.endian w v, w⟩) := by
  rw [writeWord_empty_data opts w v h, readWord_full opts w v h]

theorem writeSigned_eq (opts : Options) (w : Nat) (v : Int)
    (s : ByteStream) :
    writeSigned opts w v s =
      (.ok w, streamWrite s
        (encodeEndian opts.endian w ((v % (2 ^ (8 * w) : Int)).toNat))) := by
  rw [writeSigned, writeWord_eq, Nat.mod_eq_of_lt (emod_toNat_lt v w)]

theorem roundSigned (opts : Options) (w : Nat) (hw : 0 < w) (v : Int)
    (h1 : -(2 ^ (8 * w - 1)) ≤ v) (h2 : v < 2 ^ (8 * w - 1)) :
    readSigned opts w ⟨(writeSigned opts w v ⟨[], 0⟩).2.data, 0⟩ =
      (.ok v, ⟨encodeEndian opts.endian w ((v % (2 ^ (8 * w) : Int)).toNat),
        w⟩) := by
  have hm := emod_toNat_lt v w
  have hd : (writeSigned opts w v ⟨[], 0⟩).2.data =
      encodeEndian opts.endian w ((v % (2 ^ (8 * w) : Int)).toNat) := by
    rw [writeSigned_eq, streamWrite_empty]
  rw [readSigned, hd,
    readWord_full opts w ((v % (2 ^ (8 * w) : Int)).toNat) hm]
  simp [toSigned_emod w hw v h1 h2]

/-! ### C8 : length query restores the cursor -/

/-- C8: `BinaryReader::len` / `BinaryWriter::len` return the total byte
length of the stream and leave the stream state (in particular the
position) exactly as it was, so repeated queries return the same value
with no cumulative side effect. -/
theorem len_query_is_stateless (s : ByteStream) :
    lenOp s = (s.data.length, s) := by
  cases s
  rfl

/-! ### C9 : the configured byte order is applied -/

/-- C9: writing the non-palindromic value `1` as a `u32` under one
endianness and reading it back under the other yields `16777216 ≠ 1`,
while matching endianness round-trips to `1`: the configured byte order
is applied by both encode and decode. -/
theorem endian_mismatch_changes_value :
    (read_u32 ⟨.little, none⟩
      ⟨(write_u32 ⟨.big, none⟩ 1 ⟨[], 0⟩).2.data, 0⟩).1 =
        .ok 16777216 ∧
    (read_u32 ⟨.big, none⟩
      ⟨(write_u32 ⟨.little, none⟩ 1 ⟨[], 0⟩).2.data, 0⟩).1 =
        .ok 16777216 ∧
    (read_u32 ⟨.big, none⟩
      ⟨(write_u32 ⟨.big, none⟩ 1 ⟨[], 0⟩).2.data, 0⟩).1 = .ok 1 ∧
    (read_u32 ⟨.little, none⟩
      ⟨(write_u32 ⟨.little, none⟩ 1 ⟨[], 0⟩).2.data, 0⟩).1 = .ok 1 ∧
    (16777216 : Nat) ≠ 1 := by
  exact ⟨by rfl, by rfl, by rfl, by rfl, by decide⟩

/-! ### C3 : fixed-width writes produce exactly W bytes -/

theorem writeWord_pos (opts : Options) (w v : Nat) (s : ByteStream) :
    (writeWord opts w v s).2.pos = s.pos + w := by
  rw [writeWord_eq]
  simp [streamWrite_pos, encodeEndian_length]

theorem writeSigned_pos (opts : Options) (w : Nat) (v : Int)
    (s : ByteStream) :
    (writeSigned opts w v s).2.pos = s.pos + w := by
  rw [writeSigned]
  exact writeWord_pos opts w _ s

/-- C3: every fixed-width write emits exactly the endian-encoded `W`-byte
representation, reports `W` bytes written, and advances the stream by
exactly `W`; with the repository's cursor backends a write can never be
short, so success with fewer than `W` bytes is impossible. -/
theorem fixed_width_writes_exact :
    (∀ (opts : Options) (v : Nat) (s : ByteStream),
      write_u8 opts v s =
        (.ok 1, streamWrite s (encodeEndian opts.endian 1 (v % 2 ^ (8 * 1))))
        ∧ (write_u8 opts v s).2.pos = s.pos + 1) ∧
    (∀ (opts : Options) (v : Nat) (s : ByteStream),
      write_u16 opts v s =
        (.ok 2, streamWrite s (encodeEndian opts.endian 2 (v % 2 ^ (8 * 2))))
        ∧ (write_u16 opts v s).2.pos = s.pos + 2) ∧
    (∀ (opts : Options) (v : Nat) (s : ByteStream),
      write_u32 opts v s =
        (.ok 4, streamWrite s (encodeEndian opts.endian 4 (v % 2 ^ (8 * 4))))
        ∧ (write_u32 opts v s).2.pos = s.pos + 4) ∧
    (∀ (opts : Options) (v : Nat) (s : ByteStream),
      write_u64 opts v s =
        (.ok 8, streamWrite s (encodeEndian opts.endian 8 (v % 2 ^ (8 * 8))))
        ∧ (write_u64 opts v s).2.pos = s.pos + 8) ∧
    (∀ (opts : Options) (v : Nat) (s : ByteStream),
      write_u128 opts v s =
        (.ok 16,
          streamWrite s (encodeEndian opts.endian 16 (v % 2 ^ (8 * 16))))
        ∧ (write_u128 opts v s).2.pos = s.pos + 16) ∧
    (∀ (opts : Options) (v : Nat) (s : ByteStream),
      write_usize opts v s =
        (.ok 8, streamWrite s (encodeEndian opts.endian 8 (v % 2 ^ (8 * 8))))
        ∧ (write_usize opts v s).2.pos = s.pos + 8) ∧
    (∀ (opts : Options) (v : Nat) (s : ByteStream),
      write_f32 opts v s =
        (.ok 4, streamWrite s (encodeEndian opts.endian 4 (v % 2 ^ (8 * 4))))
        ∧ (write_f32 opts v s).2.pos = s.pos + 4) ∧
    (∀ (opts : Options) (v : Nat) (s : ByteStream),
      write_f64 opts v s =
        (.ok 8, streamWrite s (encodeEndian opts.endian 8 (v % 2 ^ (8 * 8))))
        ∧ (write_f64 opts v s).2.pos = s.pos + 8) ∧
    (∀ (opts : Options) (v : Int) (s : ByteStream),
      write_i8 opts v s =
        (.ok 1, streamWrite s
          (encodeEndian opts.endian 1 ((v % (2 ^ (8 * 1) : Int)).toNat)))
        ∧ (write_i8 opts v s).2.pos = s.pos + 1) ∧
    (∀ (opts : Options) (v : Int) (s : ByteStream),
      write_i16 opts v s =
        (.ok 2, streamWrite s
          (encodeEndian opts.endian 2 ((v % (2 ^ (8 * 2) : Int)).toNat)))
        ∧ (write_i16 opts v s).2.pos = s.pos + 2) ∧
    (∀ (opts : Options) (v : Int) (s : ByteStream),
      write_i32 opts v s =
        (.ok 4, streamWrite s
          (encodeEndian opts.endian 4 ((v % (2 ^ (8 * 4) : Int)).toNat)))
        ∧ (write_i32 opts v s).2.pos = s.pos + 4) ∧
    (∀ (opts : Options) (v : Int) (s : ByteStream),
      write_i64 opts v s =
        (.ok 8, streamWrite s
          (encodeEndian opts.endian 8 ((v % (2 ^ (8 * 8) : Int)).toNat)))
        ∧ (write_i64 opts v s).2.pos = s.pos + 8) ∧
    (∀ (opts : Options) (v : Int) (s : ByteStream),
      write_i128 opts v s =
        (.ok 16, streamWrite s
          (encodeEndian opts.endian 16 ((v % (2 ^ (8 * 16) : Int)).toNat)))
        ∧ (write_i128 opts v s).2.pos = s.pos + 16) ∧
    (∀ (opts : Options) (v : Int) (s : ByteStream),
      write_isize opts v s =
        (.ok 8, streamWrite s
          (encodeEndian opts.endian 8 ((v % (2 ^ (8 * 8) : Int)).toNat)))
        ∧ (write_isize opts v s).2.pos = s.pos + 8) := by
  refine ⟨?_, ?_, ?_, ?_, ?_, ?_, ?_, ?_, ?_, ?_, ?_, ?_, ?_, ?_⟩ <;>
    intro opts v s <;>
    first
      | exact ⟨writeWord_eq opts _ v s, writeWord_pos opts _ v s⟩
      | exact ⟨writeSigned_eq opts _ v s, writeSigned_pos opts _ v s⟩

/-! ### C5 : asymmetric boolean codec -/

theorem encodeEndian_one (e : Endian) (v : Nat) (h : v < 256) :
    encodeEndian e 1 v = [v] := by
  cases e <;> simp [encodeEndian, toLeBytes, Nat.mod_eq_of_lt h]

theorem write_bool_bytes (opts : Options) (b : Bool) (s : ByteStream) :
    write_bool opts b s = (.ok 1, streamWrite s [if b then 1 else 0]) := by
  rw [write_bool, write_u8, writeWord_eq]
  cases b <;> simp [encodeEndian_one]

/-- C5: `write_bool` writes exactly one byte, `0x01` for `true` and
`0x00` for `false`, while `read_bool` reads one byte and decodes every
strictly positive byte (including non-canonical values such as `0xFF`)
to `true` and zero to `false`. -/
theorem bool_codec_asymmetric :
    (∀ (opts : Options) (s : ByteStream),
      write_bool opts true s = (.ok 1, streamWrite s [1])) ∧
    (∀ (opts : Options) (s : ByteStream),
      write_bool opts false s = (.ok 1, streamWrite s [0])) ∧
    (∀ (opts : Options) (s s' : ByteStream) (v : Nat),
      read_u8 opts s = (.ok v, s') →
        read_bool opts s = (.ok (decide (0 < v)), s')) := by
  refine ⟨fun opts s => write_bool_bytes opts true s,
    fun opts s => write_bool_bytes opts false s, ?_⟩
  intro opts s s' v h
  rw [read_bool, h]

/-- Witness for C5: a stored byte `0xFF` decodes to `true` and a stored
byte `0x00` decodes to `false`. -/
theorem bool_codec_asymmetric_witness :
    read_bool ⟨.little, none⟩ ⟨[255], 0⟩ = (.ok true, ⟨[255], 1⟩) ∧
    read_bool ⟨.little, none⟩ ⟨[0], 0⟩ = (.ok false, ⟨[0], 1⟩) := by
  constructor
  · have h := bool_codec_asymmetric.2.2 ⟨.little, none⟩ ⟨[255], 0⟩
      ⟨[255], 1⟩ 255 (by rfl)
    simpa using h
  · have h := bool_codec_asymmetric.2.2 ⟨.little, none⟩ ⟨[0], 0⟩
      ⟨[0], 1⟩ 0 (by rfl)
    simpa using h

/-! ### C10 : write_string returns only the payload byte count -/

theorem write_string_guard_ok (opts : Options) (bs : List Nat)
    (s : ByteStream)
    (hguard : guardSize bs.length opts.max_buffer_size = none) :
    write_string opts bs s =
      (.ok bs.length,
        streamWrite
          (streamWrite s
            (encodeEndian opts.endian 4 (bs.length % 2 ^ (8 * 4)))) bs) ∧
    (write_string opts bs s).2.pos = s.pos + 4 + bs.length := by
  have heq : write_string opts bs s =
      (.ok bs.length,
        streamWrite
          (streamWrite s
            (encodeEndian opts.endian 4 (bs.length % 2 ^ (8 * 4)))) bs) := by
    rw [write_string, hguard, write_u32, writeWord_eq]
  refine ⟨heq, ?_⟩
  rw [heq]
  simp [streamWrite_pos, encodeEndian_length, Nat.add_assoc]

/-- C10: when the size guard passes, `write_string` writes the 4-byte
length prefix (default profile) followed by the UTF-8 payload — the
stream advances by `4 + len` — but the returned byte count is the
payload length alone, excluding the prefix. -/
theorem write_string_returns_payload_count (opts : Options)
    (bs : List Nat) (s : ByteStream)
    (hguard : guardSize bs.length opts.max_buffer_size = none) :
    write_string opts bs s =
      (.ok bs.length,
        streamWrite
          (streamWrite s
            (encodeEndian opts.endian 4 (bs.length % 2 ^ (8 * 4)))) bs) ∧
    (write_string opts bs s).2.pos = s.pos + 4 + bs.length :=
  write_string_guard_ok opts bs s hguard

/-- Witness for C10: writing the 3-byte string `"foo"` returns a count
of 3 while the stream position lands at 7 (= 4-byte prefix + 3). -/
theorem write_string_returns_payload_count_witness :
    write_string ⟨.little, none⟩ [102, 111, 111] ⟨[], 0⟩ =
      (.ok 3, ⟨[3, 0, 0, 0, 102, 111, 111], 7⟩) ∧
    (write_string ⟨.little, none⟩ [102, 111, 111] ⟨[], 0⟩).2.pos =
      0 + 4 + 3 := by
  have h := write_string_returns_payload_count ⟨.little, none⟩
    [102, 111, 111] ⟨[], 0⟩ (by rfl)
  exact ⟨by rw [h.1]; rfl, h.2⟩

/-! ### C2 : size guard enforcement -/

theorem guardSize_some (len max : Nat) (h : len > max) :
    guardSize len (some max) = some (.bufferTooLarge len max) := by
  simp [guardSize, h]

theorem guardSize_none (len : Nat) : guardSize len none = none := rfl

/-- C2: with `max_buffer_size = Some max`, `write_string` and
`write_bytes` reject payloads longer than `max` with the
buffer-too-large error leaving the stream untouched, `read_string`
rejects a wire length prefix larger than `max` right after the prefix
read and before touching the payload, and `read_bytes` rejects an
over-large requested length before reading; with `max_buffer_size =
None` the guard is skipped entirely. -/
theorem size_guard_enforced :
    (∀ (opts : Options) (max : Nat) (bs : List Nat) (s : ByteStream),
      opts.max_buffer_size = some max → bs.length > max →
        write_string opts bs s =
          (.error (.bufferTooLarge bs.length max), s)) ∧
    (∀ (opts : Options) (max : Nat) (bs : List Nat) (s : ByteStream),
      opts.max_buffer_size = some max → bs.length > max →
        write_bytes opts bs s =
          (.error (.bufferTooLarge bs.length max), s)) ∧
    (∀ (opts : Options) (max : Nat) (s s1 : ByteStream) (len : Nat),
      opts.max_buffer_size = some max →
        read_u32 opts s = (.ok len, s1) → len > max →
          read_string opts s = (.error (.bufferTooLarge len max), s1)) ∧
    (∀ (opts : Options) (max n : Nat) (s : ByteStream),
      opts.max_buffer_size = some max → n > max →
        read_bytes opts n s = (.error (.bufferTooLarge n max), s)) ∧
    (∀ (opts : Options) (bs : List Nat) (s : ByteStream),
      opts.max_buffer_size = none →
        write_string opts bs s =
          (.ok bs.length,
            streamWrite
              (streamWrite s
                (encodeEndian opts.endian 4 (bs.length % 2 ^ (8 * 4))))
              bs)) ∧
    (∀ (opts : Options) (bs : List Nat) (s : ByteStream),
      opts.max_buffer_size = none →
        write_bytes opts bs s = (.ok bs.length, streamWrite s bs)) ∧
    (∀ (opts : Options) (n : Nat) (s : ByteStream),
      opts.max_buffer_size = none →
        read_bytes opts n s = readExact s n) := by
  refine ⟨?_, ?_, ?_, ?_, ?_, ?_, ?_⟩
  · intro opts max bs s hmax hgt
    rw [write_string, hmax, guardSize_some bs.length max hgt]
  · intro opts max bs s hmax hgt
    rw [write_bytes, hmax, guardSize_some bs.length max hgt]
  · intro opts max s s1 len hmax hread hgt
    simp only [read_string, hread, hmax, guardSize_some len max hgt]
  · intro opts max n s hmax hgt
    rw [read_bytes, hmax, guardSize_some n max hgt]
  · intro opts bs s hmax
    exact (write_string_guard_ok opts bs s (by rw [hmax]; rfl)).1
  · intro opts bs s hmax
    rw [write_bytes, hmax]
    rfl
  · intro opts n s hmax
    rw [read_bytes, hmax]
    rfl

/-- Witness for C2: with `max_buffer_size = 1024` a 2048-byte string
write, byte write, wire length prefix, and byte read all fail with the
buffer-too-large error carrying `requested = 2048, limit = 1024`. -/
theorem size_guard_enforced_witness :
    write_string ⟨.little, some 1024⟩ (List.replicate 2048 46) ⟨[], 0⟩ =
      (.error (.bufferTooLarge 2048 1024), ⟨[], 0⟩) ∧
    write_bytes ⟨.little, some 1024⟩ (List.replicate 2048 0) ⟨[], 0⟩ =
      (.error (.bufferTooLarge 2048 1024), ⟨[], 0⟩) ∧
    read_string ⟨.little, some 1024⟩ ⟨[0, 8, 0, 0], 0⟩ =
      (.error (.bufferTooLarge 2048 1024), ⟨[0, 8, 0, 0], 4⟩) ∧
    read_bytes ⟨.little, some 1024⟩ 2048 ⟨[], 0⟩ =
      (.error (.bufferTooLarge 2048 1024), ⟨[], 0⟩) := by
  refine ⟨?_, ?_, ?_, ?_⟩
  · have h := size_guard_enforced.1 ⟨.little, some 1024⟩ 1024
      (List.replicate 2048 46) ⟨[], 0⟩ (by rfl) (by simp)
    simpa using h
  · have h := size_guard_enforced.2.1 ⟨.little, some 1024⟩ 1024
      (List.replicate 2048 0) ⟨[], 0⟩ (by rfl) (by simp)
    simpa using h
  · exact size_guard_enforced.2.2.1 ⟨.little, some 1024⟩ 1024
      ⟨[0, 8, 0, 0], 0⟩ ⟨[0, 8, 0, 0], 4⟩ 2048 (by rfl) (by rfl)
      (by decide)
  · exact size_guard_enforced.2.2.2.1 ⟨.little, some 1024⟩ 1024 2048
      ⟨[], 0⟩ (by rfl) (by decide)

/-! ### C4 : short fixed-width reads fail -/

/-- C4: when fewer than `W` bytes remain between the position and the
end of data, every fixed-width read of width `W` fails with the
unexpected-end-of-data error, leaving the stream untouched and
returning no value at all. -/
theorem short_fixed_reads_fail :
    (∀ (opts : Options) (s : ByteStream), s.data.length < s.pos + 1 →
      read_u8 opts s = (.error .readPastEof, s)) ∧
    (∀ (opts : Options) (s : ByteStream), s.data.length < s.pos + 2 →
      read_u16 opts s = (.error .readPastEof, s)) ∧
    (∀ (opts : Options) (s : ByteStream), s.data.length < s.pos + 4 →
      read_u32 opts s = (.error .readPastEof, s)) ∧
    (∀ (opts : Options) (s : ByteStream), s.data.length < s.pos + 8 →
      read_u64 opts s = (.error .readPastEof, s)) ∧
    (∀ (opts : Options) (s : ByteStream), s.data.length < s.pos + 16 →
      read_u128 opts s = (.error .readPastEof, s)) ∧
    (∀ (opts : Options) (s : ByteStream), s.data.length < s.pos + 8 →
      read_usize opts s = (.error .readPastEof, s)) ∧
    (∀ (opts : Options) (s : ByteStream), s.data.length < s.pos + 1 →
      read_i8 opts s = (.error .readPastEof, s)) ∧
    (∀ (opts : Options) (s : ByteStream), s.data.length < s.pos + 2 →
      read_i16 opts s = (.error .readPastEof, s)) ∧
    (∀ (opts : Options) (s : ByteStream), s.data.length < s.pos + 4 →
      read_i32 opts s = (.error .readPastEof, s)) ∧
    (∀ (opts : Options) (s : ByteStream), s.data.length < s.pos + 8 →
      read_i64 opts s = (.error .readPastEof, s)) ∧
    (∀ (opts : Options) (s : ByteStream), s.data.length < s.pos + 16 →
      read_i128 opts s = (.error .readPastEof, s)) ∧
    (∀ (opts : Options) (s : ByteStream), s.data.length < s.pos + 8 →
      read_isize opts s = (.error .readPastEof, s)) ∧
    (∀ (opts : Options) (s : ByteStream), s.data.length < s.pos + 4 →
      read_f32 opts s = (.error .readPastEof, s)) ∧
    (∀ (opts : Options) (s : ByteStream), s.data.length < s.pos + 8 →
      read_f64 opts s = (.error .readPastEof, s)) := by
  refine ⟨?_, ?_, ?_, ?_, ?_, ?_, ?_, ?_, ?_, ?_, ?_, ?_, ?_, ?_⟩ <;>
    intro opts s h <;>
    first
      | exact readWord_err opts _ s h
      | exact readSigned_err opts _ s h

/-- Witness for C4: after one `f32` (4 bytes) is written and consumed,
a second 4-byte read on the same stream fails with the
unexpected-end-of-data error instead of yielding a value. -/
theorem short_fixed_reads_fail_witness :
    read_f32 ⟨.little, none⟩ ⟨[0, 0, 160, 64], 4⟩ =
      (.error .readPastEof, ⟨[0, 0, 160, 64], 4⟩) :=
  short_fixed_reads_fail.2.2.2.2.2.2.2.2.2.2.2.2.1 ⟨.little, none⟩
    ⟨[0, 0, 160, 64], 4⟩ (by decide)

/-! ### C7 : position accounting -/

theorem readExact_ok_state (s : ByteStream) (n : Nat) (bs : List Nat)
    (s' : ByteStream) (h : readExact s n = (.ok bs, s')) :
    s' = ⟨s.data, s.pos + n⟩ ∧ bs.length = n ∧
      s.pos + n ≤ s.data.length := by
  by_cases hc : s.data.length < s.pos + n
  · rw [readExact_err s n hc] at h
    simp at h
  · have hle := Nat.not_lt.mp hc
    rw [readExact_ok s n hle] at h
    simp only [Prod.mk.injEq, Except.ok.injEq] at h
    refine ⟨h.2.symm, ?_, hle⟩
    rw [← h.1]
    simp only [List.length_take, List.length_drop]
    omega

theorem readSigned_ok_state (opts : Options) (w : Nat) (s s' : ByteStream)
    (v : Int) (h : readSigned opts w s = (.ok v, s')) :
    s'.pos = s.pos + w := by
  unfold readSigned at h
  cases hrw : readWord opts w s with
  | mk r s2 =>
    simp only [hrw] at h
    cases r with
    | error e => simp at h
    | ok n =>
      simp only [Prod.mk.injEq] at h
      rw [← h.2, (readWord_ok_state opts w s s2 n hrw).1]

theorem read_bool_ok_state (opts : Options) (s s' : ByteStream) (b : Bool)
    (h : read_bool opts s = (.ok b, s')) : s'.pos = s.pos + 1 := by
  unfold read_bool at h
  cases hrw : read_u8 opts s with
  | mk r s2 =>
    simp only [hrw] at h
    cases r with
    | error e => simp at h
    | ok n =>
      simp only [Prod.mk.injEq] at h
      rw [← h.2, (readWord_ok_state opts 1 s s2 n hrw).1]

theorem read_char_ok_state (opts : Options) (s s' : ByteStream) (v : Nat)
    (h : read_char opts s = (.ok v, s')) : s'.pos = s.pos + 4 := by
  unfold read_char at h
  cases hrw : read_u32 opts s with
  | mk r s2 =>
    simp only [hrw] at h
    cases r with
    | error e => simp at h
    | ok n =>
      by_cases hv : isUnicodeScalar n
      · simp [hv] at h
        rw [← h.2, (readWord_ok_state opts 4 s s2 n hrw).1]
      · simp [hv] at h

theorem read_string_ok_state (opts : Options) (s s' : ByteStream)
    (bs : List Nat) (h : read_string opts s = (.ok bs, s')) :
    s'.pos = s.pos + 4 + bs.length := by
  unfold read_string at h
  cases hru : read_u32 opts s with
  | mk r1 s1 =>
    simp only [hru] at h
    cases r1 with
    | error e => simp at h
    | ok len =>
      cases hg : guardSize len opts.max_buffer_size with
      | some e => simp only [hg] at h; simp at h
      | none =>
        simp only [hg] at h
        cases hre : readExact s1 len with
        | mk r2 s2 =>
          simp only [hre] at h
          cases r2 with
          | error e => simp at h
          | ok chars =>
            by_cases hu : utf8Valid chars
            · simp [hu] at h
              obtain ⟨hbs, hs⟩ := h
              have h1 := (readWord_ok_state opts 4 s s1 len hru).1
              obtain ⟨h2, h3, _⟩ := readExact_ok_state s1 len chars s2 hre
              rw [← hs, h2, h1, ← hbs, h3]
            · simp [hu] at h

theorem read_bytes_ok_state (opts : Options) (n : Nat) (s s' : ByteStream)
    (bs : List Nat) (h : read_bytes opts n s = (.ok bs, s')) :
    s'.pos = s.pos + n ∧ bs.length = n := by
  unfold read_bytes at h
  cases hg : guardSize n opts.max_buffer_size with
  | some e => simp only [hg] at h; simp at h
  | none =>
    simp only [hg] at h
    obtain ⟨h1, h2, _⟩ := readExact_ok_state s n bs s' h
    exact ⟨by rw [h1], h2⟩

theorem write_string_ok_state (opts : Options) (bs : List Nat)
    (s s' : ByteStream) (r : Nat)
    (h : write_string opts bs s = (.ok r, s')) :
    s'.pos = s.pos + 4 + bs.length := by
  cases hg : guardSize bs.length opts.max_buffer_size with
  | some e =>
      rw [write_string, hg] at h
      simp at h
  | none =>
      obtain ⟨heq, _⟩ := write_string_guard_ok opts bs s hg
      rw [heq] at h
      simp only [Prod.mk.injEq] at h
      rw [← h.2]
      simp [streamWrite_pos, encodeEndian_length, Nat.add_assoc]

/-- C7: every successful read or write advances the stream position by
exactly the number of bytes logically consumed or produced: `W` for a
fixed-width value (unsigned, signed, float, bool, char), `4 + len` for a
length-prefixed string, and the buffer length for raw byte reads and
writes. -/
theorem position_advances_exactly :
    (∀ (opts : Options) (w : Nat) (s s' : ByteStream) (v : Nat),
      readWord opts w s = (.ok v, s') → s'.pos = s.pos + w) ∧
    (∀ (opts : Options) (w : Nat) (s s' : ByteStream) (v : Int),
      readSigned opts w s = (.ok v, s') → s'.pos = s.pos + w) ∧
    (∀ (opts : Options) (w v : Nat) (s : ByteStream),
      (writeWord opts w v s).2.pos = s.pos + w) ∧
    (∀ (opts : Options) (w : Nat) (v : Int) (s : ByteStream),
      (writeSigned opts w v s).2.pos = s.pos + w) ∧
    (∀ (opts : Options) (s s' : ByteStream) (b : Bool),
      read_bool opts s = (.ok b, s') → s'.pos = s.pos + 1) ∧
    (∀ (opts : Options) (b : Bool) (s : ByteStream),
      (write_bool opts b s).2.pos = s.pos + 1) ∧
    (∀ (opts : Options) (s s' : ByteStream) (v : Nat),
      read_char opts s = (.ok v, s') → s'.pos = s.pos + 4) ∧
    (∀ (opts : Options) (c : Nat) (s : ByteStream),
      (write_char opts c s).2.pos = s.pos + 4) ∧
    (∀ (opts : Options) (s s' : ByteStream) (bs : List Nat),
      read_string opts s = (.ok bs, s') → s'.pos = s.pos + 4 + bs.length) ∧
    (∀ (opts : Options) (bs : List Nat) (s s' : ByteStream) (r : Nat),
      write_string opts bs s = (.ok r, s') →
        s'.pos = s.pos + 4 + bs.length) ∧
    (∀ (opts : Options) (n : Nat) (s s' : ByteStream) (bs : List Nat),
      read_bytes opts n s = (.ok bs, s') →
        s'.pos = s.pos + n ∧ bs.length = n) ∧
    (∀ (opts : Options) (bs : List Nat) (s s' : ByteStream) (r : Nat),
      write_bytes opts bs s = (.ok r, s') →
        s'.pos = s.pos + bs.length) := by
  refine ⟨?_, readSigned_ok_state, ?_, ?_, read_bool_ok_state, ?_,
    read_char_ok_state, ?_, read_string_ok_state, ?_, read_bytes_ok_state,
    ?_⟩
  · intro opts w s s' v h
    rw [(readWord_ok_state opts w s s' v h).1]
  · intro opts w v s
    exact writeWord_pos opts w v s
  · intro opts w v s
    exact writeSigned_pos opts w v s
  · intro opts b s
    exact writeWord_pos opts 1 _ s
  · intro opts c s
    exact writeWord_pos opts 4 c s
  · exact write_string_ok_state
  · intro opts bs s s' r h
    cases hg : guardSize bs.length opts.max_buffer_size with
    | some e =>
        rw [write_bytes, hg] at h
        simp at h
    | none =>
        rw [write_bytes, hg] at h
        simp only [Prod.mk.injEq] at h
        rw [← h.2, streamWrite_pos]

/-- Witness for C7: reading a `u32` from a 4-byte stream moves the
position from 0 to 4, and a successful `read_bytes` of length 2 moves
it from 0 to 2 returning 2 bytes. -/
theorem position_advances_exactly_witness :
    ((⟨[1, 2, 3, 4], 4⟩ : ByteStream).pos =
      (⟨[1, 2, 3, 4], 0⟩ : ByteStream).pos + 4) ∧
    ((⟨[9, 9], 2⟩ : ByteStream).pos =
      (⟨[9, 9], 0⟩ : ByteStream).pos + 2 ∧ ([9, 9] : List Nat).length = 2) := by
  constructor
  · exact position_advances_exactly.1 ⟨.little, none⟩ 4 ⟨[1, 2, 3, 4], 0⟩
      ⟨[1, 2, 3, 4], 4⟩ 67305985 (by rfl)
  · exact position_advances_exactly.2.2.2.2.2.2.2.2.2.2.1 ⟨.little, none⟩
      2 ⟨[9, 9], 0⟩ ⟨[9, 9], 2⟩ [9, 9] (by rfl)

/-! ### C1 : primitive round-trips -/

theorem round_bool (opts : Options) (b : Bool) :
    (read_bool opts ⟨(write_bool opts b ⟨[], 0⟩).2.data, 0⟩).1 = .ok b := by
  obtain ⟨e, m⟩ := opts
  cases e <;> cases b <;> rfl

theorem round_char (opts : Options) (c : Nat)
    (h : isUnicodeScalar c = true) :
    (read_char opts ⟨(write_char opts c ⟨[], 0⟩).2.data, 0⟩).1 = .ok c := by
  have hc : c < 2 ^ (8 * 4) := by
    have : c < 1114112 := by
      have h1 := h
      unfold isUnicodeScalar at h1
      simp only [Bool.and_eq_true, decide_eq_true_eq] at h1
      exact h1.1
    omega
  rw [read_char, write_char, write_u32, read_u32, roundWord opts 4 c hc]
  simp [h]

theorem round_string (opts : Options) (bs : List Nat)
    (hutf : utf8Valid bs = true) (hlen : bs.length < 2 ^ (8 * 4))
    (hguard : guardSize bs.length opts.max_buffer_size = none) :
    (read_string opts
      ⟨(write_string opts bs ⟨[], 0⟩).2.data, 0⟩).1 = .ok bs := by
  obtain ⟨heq, _⟩ := write_string_guard_ok opts bs ⟨[], 0⟩ hguard
  have hmod : bs.length % 2 ^ (8 * 4) = bs.length := Nat.mod_eq_of_lt hlen
  have henc : (encodeEndian opts.endian 4 bs.length).length = 4 :=
    encodeEndian_length opts.endian 4 bs.length
  have hdata : (write_string opts bs ⟨[], 0⟩).2.data =
      encodeEndian opts.endian 4 bs.length ++ bs := by
    rw [heq, hmod]
    simp only [streamWrite_empty]
    rw [show (⟨encodeEndian opts.endian 4 bs.length,
        (encodeEndian opts.endian 4 bs.length).length⟩ : ByteStream) =
        ⟨encodeEndian opts.endian 4 bs.length,
          (encodeEndian opts.endian 4 bs.length).length⟩ from rfl,
      streamWrite_append]
  have hread : read_u32 opts ⟨encodeEndian opts.endian 4 bs.length ++ bs, 0⟩
      = (.ok bs.length,
          ⟨encodeEndian opts.endian 4 bs.length ++ bs, 4⟩) := by
    have h0 := readWord_encode opts 4 bs.length [] bs hlen
    simpa using h0
  have hre : readExact ⟨encodeEndian opts.endian 4 bs.length ++ bs, 4⟩
      bs.length = (.ok bs,
        ⟨encodeEndian opts.endian 4 bs.length ++ bs, 4 + bs.length⟩) := by
    have h0 := readExact_mid (encodeEndian opts.endian 4 bs.length) bs []
    rw [henc] at h0
    simpa using h0
  rw [hdata]
  simp [read_string, hread, hguard, hre, hutf]

theorem round_bytes (opts : Options) (bs : List Nat)
    (hguard : guardSize bs.length opts.max_buffer_size = none) :
    (read_bytes opts bs.length
      ⟨(write_bytes opts bs ⟨[], 0⟩).2.data, 0⟩).1 = .ok bs := by
  have hdata : (write_bytes opts bs ⟨[], 0⟩).2.data = bs := by
    rw [write_bytes, hguard]
    simp [streamWrite_empty]
  rw [hdata, read_bytes, hguard]
  have h0 := readExact_mid [] bs []
  simp only [List.nil_append, List.append_nil, List.length_nil] at h0
  rw [show (0 : Nat) + bs.length = bs.length from Nat.zero_add _] at h0
  rw [h0]

/-- C1: writing any primitive value with a `BinaryWriter` and reading it
back from position 0 with the same `Options` returns the value: every
unsigned and signed fixed width (`u8`–`u128`, `usize`, `i8`–`i128`,
`isize`), `f32`/`f64` bit patterns, `bool`, `char`, length-prefixed
strings (any valid UTF-8 byte sequence passing the guard, including the
empty string), and raw byte buffers of known length (including the
empty buffer). -/
theorem primitive_round_trip :
    (∀ (opts : Options) (v : Nat), v < 2 ^ (8 * 1) →
      (read_u8 opts ⟨(write_u8 opts v ⟨[], 0⟩).2.data, 0⟩).1 = .ok v) ∧
    (∀ (opts : Options) (v : Nat), v < 2 ^ (8 * 2) →
      (read_u16 opts ⟨(write_u16 opts v ⟨[], 0⟩).2.data, 0⟩).1 = .ok v) ∧
    (∀ (opts : Options) (v : Nat), v < 2 ^ (8 * 4) →
      (read_u32 opts ⟨(write_u32 opts v ⟨[], 0⟩).2.data, 0⟩).1 = .ok v) ∧
    (∀ (opts : Options) (v : Nat), v < 2 ^ (8 * 8) →
      (read_u64 opts ⟨(write_u64 opts v ⟨[], 0⟩).2.data, 0⟩).1 = .ok v) ∧
    (∀ (opts : Options) (v : Nat), v < 2 ^ (8 * 16) →
      (read_u128 opts ⟨(write_u128 opts v ⟨[], 0⟩).2.data, 0⟩).1 = .ok v) ∧
    (∀ (opts : Options) (v : Nat), v < 2 ^ (8 * 8) →
      (read_usize opts ⟨(write_usize opts v ⟨[], 0⟩).2.data, 0⟩).1 =
        .ok v) ∧
    (∀ (opts : Options) (v : Nat), v < 2 ^ (8 * 4) →
      (read_f32 opts ⟨(write_f32 opts v ⟨[], 0⟩).2.data, 0⟩).1 = .ok v) ∧
    (∀ (opts : Options) (v : Nat), v < 2 ^ (8 * 8) →
      (read_f64 opts ⟨(write_f64 opts v ⟨[], 0⟩).2.data, 0⟩).1 = .ok v) ∧
    (∀ (opts : Options) (v : Int),
      -(2 ^ (8 * 1 - 1)) ≤ v → v < 2 ^ (8 * 1 - 1) →
      (read_i8 opts ⟨(write_i8 opts v ⟨[], 0⟩).2.data, 0⟩).1 = .ok v) ∧
    (∀ (opts : Options) (v : Int),
      -(2 ^ (8 * 2 - 1)) ≤ v → v < 2 ^ (8 * 2 - 1) →
      (read_i16 opts ⟨(write_i16 opts v ⟨[], 0⟩).2.data, 0⟩).1 = .ok v) ∧
    (∀ (opts : Options) (v : Int),
      -(2 ^ (8 * 4 - 1)) ≤ v → v < 2 ^ (8 * 4 - 1) →
      (read_i32 opts ⟨(write_i32 opts v ⟨[], 0⟩).2.data, 0⟩).1 = .ok v) ∧
    (∀ (opts : Options) (v : Int),
      -(2 ^ (8 * 8 - 1)) ≤ v → v < 2 ^ (8 * 8 - 1) →
      (read_i64 opts ⟨(write_i64 opts v ⟨[], 0⟩).2.data, 0⟩).1 = .ok v) ∧
    (∀ (opts : Options) (v : Int),
      -(2 ^ (8 * 16 - 1)) ≤ v → v < 2 ^ (8 * 16 - 1) →
      (read_i128 opts ⟨(write_i128 opts v ⟨[], 0⟩).2.data, 0⟩).1 = .ok v) ∧
    (∀ (opts : Options) (v : Int),
      -(2 ^ (8 * 8 - 1)) ≤ v → v < 2 ^ (8 * 8 - 1) →
      (read_isize opts ⟨(write_isize opts v ⟨[], 0⟩).2.data, 0⟩).1 =
        .ok v) ∧
    (∀ (opts : Options) (b : Bool),
      (read_bool opts ⟨(write_bool opts b ⟨[], 0⟩).2.data, 0⟩).1 =
        .ok b) ∧
    (∀ (opts : Options) (c : Nat), isUnicodeScalar c = true →
      (read_char opts ⟨(write_char opts c ⟨[], 0⟩).2.data, 0⟩).1 =
        .ok c) ∧
    (∀ (opts : Options) (bs : List Nat), utf8Valid bs = true →
      bs.length < 2 ^ (8 * 4) →
      guardSize bs.length opts.max_buffer_size = none →
      (read_string opts ⟨(write_string opts bs ⟨[], 0⟩).2.data, 0⟩).1 =
        .ok bs) ∧
    (∀ (opts : Options) (bs : List Nat),
      guardSize bs.length opts.max_buffer_size = none →
      (read_bytes opts bs.length
        ⟨(write_bytes opts bs ⟨[], 0⟩).2.data, 0⟩).1 = .ok bs) := by
  exact ⟨fun opts v h => by
      rw [read_u8, write_u8, roundWord opts 1 v h],
    fun opts v h => by
      rw [read_u16, write_u16, roundWord opts 2 v h],
    fun opts v h => by
      rw [read_u32, write_u32, roundWord opts 4 v h],
    fun opts v h => by
      rw [read_u64, write_u64, roundWord opts 8 v h],
    fun opts v h => by
      rw [read_u128, write_u128, roundWord opts 16 v h],
    fun opts v h => by
      rw [read_usize, write_usize, roundWord opts 8 v h],
    fun opts v h => by
      rw [read_f32, write_f32, roundWord opts 4 v h],
    fun opts v h => by
      rw [read_f64, write_f64, roundWord opts 8 v h],
    fun opts v h1 h2 => by
      rw [read_i8, write_i8, roundSigned opts 1 (by norm_num) v h1 h2],
    fun opts v h1 h2 => by
      rw [read_i16, write_i16, roundSigned opts 2 (by norm_num) v h1 h2],
    fun opts v h1 h2 => by
      rw [read_i32, write_i32, roundSigned opts 4 (by norm_num) v h1 h2],
    fun opts v h1 h2 => by
      rw [read_i64, write_i64, roundSigned opts 8 (by norm_num) v h1 h2],
    fun opts v h1 h2 => by
      rw [read_i128, write_i128,
        roundSigned opts 16 (by norm_num) v h1 h2],
    fun opts v h1 h2 => by
      rw [read_isize, write_isize,
        roundSigned opts 8 (by norm_num) v h1 h2],
    round_bool, round_char, round_string, round_bytes⟩

/-- Witness for C1: concrete round-trips at extremes — `u8::MAX`,
`u128::MAX`, `i8::MIN`, `i128::MIN`, an `f32` NaN bit pattern, `true`,
the char `'c'`, the empty string, `"foo"`, and the empty byte buffer,
under both endiannesses and with and without a configured size guard. -/
theorem primitive_round_trip_witness :
    (read_u8 ⟨.big, none⟩
      ⟨(write_u8 ⟨.big, none⟩ 255 ⟨[], 0⟩).2.data, 0⟩).1 = .ok 255 ∧
    (read_u128 ⟨.little, none⟩
      ⟨(write_u128 ⟨.little, none⟩ (2 ^ 128 - 1) ⟨[], 0⟩).2.data, 0⟩).1 =
        .ok (2 ^ 128 - 1) ∧
    (read_i8 ⟨.little, none⟩
      ⟨(write_i8 ⟨.little, none⟩ (-128) ⟨[], 0⟩).2.data, 0⟩).1 =
        .ok (-128) ∧
    (read_i128 ⟨.big, none⟩
      ⟨(write_i128 ⟨.big, none⟩ (-(2 ^ 127)) ⟨[], 0⟩).2.data, 0⟩).1 =
        .ok (-(2 ^ 127)) ∧
    (read_f32 ⟨.little, none⟩
      ⟨(write_f32 ⟨.little, none⟩ 2143289344 ⟨[], 0⟩).2.data, 0⟩).1 =
        .ok 2143289344 ∧
    (read_bool ⟨.big, none⟩
      ⟨(write_bool ⟨.big, none⟩ true ⟨[], 0⟩).2.data, 0⟩).1 = .ok true ∧
    (read_char ⟨.little, none⟩
      ⟨(write_char ⟨.little, none⟩ 99 ⟨[], 0⟩).2.data, 0⟩).1 = .ok 99 ∧
    (read_string ⟨.little, some 1024⟩
      ⟨(write_string ⟨.little, some 1024⟩ [] ⟨[], 0⟩).2.data, 0⟩).1 =
        .ok [] ∧
    (read_string ⟨.big, none⟩
      ⟨(write_string ⟨.big, none⟩ [102, 111, 111] ⟨[], 0⟩).2.data,
        0⟩).1 = .ok [102, 111, 111] ∧
    (read_bytes ⟨.little, some 1024⟩ ([] : List Nat).length
      ⟨(write_bytes ⟨.little, some 1024⟩ [] ⟨[], 0⟩).2.data, 0⟩).1 =
        .ok [] := by
  obtain ⟨h1, _h2, _h3, _h4, h5, _h6, h7, _h8, h9, _h10, _h11, _h12, h13,
    _h14, h15, h16, h17, h18⟩ := primitive_round_trip
  exact ⟨h1 ⟨.big, none⟩ 255 (by norm_num),
    h5 ⟨.little, none⟩ (2 ^ 128 - 1) (by norm_num),
    h9 ⟨.little, none⟩ (-128) (by norm_num) (by norm_num),
    h13 ⟨.big, none⟩ (-(2 ^ 127)) (by norm_num) (by norm_num),
    h7 ⟨.little, none⟩ 2143289344 (by norm_num),
    h15 ⟨.big, none⟩ true,
    h16 ⟨.little, none⟩ 99 (by decide),
    h17 ⟨.little, some 1024⟩ [] (by rfl) (by decide) (by rfl),
    h17 ⟨.big, none⟩ [102, 111, 111] (by rfl) (by decide) (by rfl),
    h18 ⟨.little, some 1024⟩ [] (by rfl)⟩

/-! ### C6 : Option encode/decode -/

/-- Counterexample to C6 as stated: decoding an `Option<u32>` whose wire
presence boolean is `false` into a target that already holds `Some 5`
leaves the target as `Some 5` — it is not reset to the default `None`
state, contradicting "regardless of the target's state before the
call". -/
theorem option_decode_keeps_stale_target :
    optionDecode 0 (fun _ s => read_u32 ⟨.little, none⟩ s)
      ⟨.little, none⟩ (some 5) ⟨[0], 0⟩ =
        (.ok (some 5), ⟨[0], 1⟩) ∧
    some 5 ≠ (none : Option Nat) := ⟨rfl, by decide⟩

/-- C6 (amended): `Option<T>::encode` writes a presence boolean followed
by the inner encoding only when the option is `Some`; decode reads the
presence boolean and, when `true`, decodes a fresh default inner value
into the target as `Some`; when the presence boolean is `false`, decode
leaves the target unchanged from before the call (so it is `None` after
the call exactly when decoding started from the default `None` state,
not regardless of the prior state). -/
theorem option_codec_encode_decode {α : Type}
    (innerEnc : α → ByteStream → BinResult Unit)
    (innerDec : α → ByteStream → BinResult α) (dflt : α)
    (opts : Options) :
    (∀ (s : ByteStream),
      optionEncode innerEnc opts none s = (.ok (), streamWrite s [0])) ∧
    (∀ (x : α) (s : ByteStream),
      optionEncode innerEnc opts (some x) s =
        innerEnc x (streamWrite s [1])) ∧
    (∀ (target : Option α) (s s' : ByteStream),
      read_bool opts s = (.ok false, s') →
        optionDecode dflt innerDec opts target s = (.ok target, s')) ∧
    (∀ (target : Option α) (s s' s2 : ByteStream) (v : α),
      read_bool opts s = (.ok true, s') →
        innerDec dflt s' = (.ok v, s2) →
          optionDecode dflt innerDec opts target s =
            (.ok (some v), s2)) := by
  refine ⟨?_, ?_, ?_, ?_⟩
  · intro s
    simp [optionEncode, write_bool_bytes]
  · intro x s
    simp [optionEncode, write_bool_bytes]
  · intro target s s' h
    simp [optionDecode, h]
  · intro target s s' s2 v h hd
    simp [optionDecode, h, hd]

/-- Witness for the amended C6: with the `u32` inner codec, a `false`
presence byte leaves a default `None` target as `None`, and a `true`
presence byte followed by an encoded `7` decodes to `Some 7`. -/
theorem option_codec_encode_decode_witness :
    optionDecode 0 (fun _ s => read_u32 ⟨.little, none⟩ s)
      ⟨.little, none⟩ (none : Option Nat) ⟨[0], 0⟩ =
        (.ok none, ⟨[0], 1⟩) ∧
    optionDecode 0 (fun _ s => read_u32 ⟨.little, none⟩ s)
      ⟨.little, none⟩ (none : Option Nat) ⟨[1, 7, 0, 0, 0], 0⟩ =
        (.ok (some 7), ⟨[1, 7, 0, 0, 0], 5⟩) := by
  constructor
  · exact (option_codec_encode_decode (fun _ s => (.ok (), s))
      (fun _ s => read_u32 ⟨.little, none⟩ s) 0
      ⟨.little, none⟩).2.2.1 none ⟨[0], 0⟩ ⟨[0], 1⟩ (by rfl)
  · exact (option_codec_encode_decode (fun _ s => (.ok (), s))
      (fun _ s => read_u32 ⟨.little, none⟩ s) 0
      ⟨.little, none⟩).2.2.2 none ⟨[1, 7, 0, 0, 0], 0⟩
      ⟨[1, 7, 0, 0, 0], 1⟩ ⟨[1, 7, 0, 0, 0], 5⟩ 7 (by rfl) (by rfl)

end BinaryStream
